import Mathlib

/-!
Verification of the jewelry_scraper job engine against its specification.

Shallow embedding of the core components cited by the claims:
  * `ScraperController` (src/backend/scraper/controller.py): job table,
    `cancel_job`, `_process_results`, `_execute_job` retry loop.
  * `ScrapingOrchestrator` (src/backend/scraper/orchestrator.py):
    `_execute_task`, `_scrape_with_retries`, `_process_results`.
  * Proxy managers (src/backend/utils/proxy_manager.py and
    src/backend/scraper/proxy_manager.py): `health_score`, `get_proxy`,
    `report_success`, `report_failure`.
  * `AdaptiveRateLimiter` (src/backend/scraper/utils/rate_limiter.py).
  * `ImageProcessor._generate_filename`
    (src/backend/scraper/utils/image_processor.py and
    src/backend/utils/image_processor.py), including a full executable
    MD5 so the filename computation is evaluated exactly.

Python floats and datetimes are embedded as rationals (ℚ); machine time is
passed explicitly wherever the source calls `datetime.now()`.
-/

/-- Job status strings used by controller.py: 'pending', 'running',
'completed', 'failed', 'cancelled'. -/
inductive JobStatus where
  | pending
  | running
  | completed
  | failed
  | cancelled
deriving DecidableEq, Repr

/-- Modelled from the spec: the controller's `_process_results` calls the
helpers `_validate_item`, image processing, and `_clean_item`, which are
absent from src (only their call sites exist).  An `Item` therefore
abstracts one raw record by the outcomes those collaborators would give it:
`valid` is the result of the validation predicate (§7 Validation), and
`procFails` says whether image processing / cleaning raises for this item
(§7 Partial item failure). -/
structure Item where
  valid : Bool
  procFails : Bool
deriving DecidableEq, Repr

/-- ScrapingJob dataclass (controller.py lines 16-34), restricted to the
fields the claims mention.  `progress : float = 0`, `items_scraped : int = 0`,
`error_count : int = 0`, `retry_count : int = 0`, `status : str = 'pending'`.
Fields not touched by any claim (query, platform, timestamps, proxy_used,
bandwidth_used, error) are omitted. -/
structure ScrapingJob where
  max_items : Nat
  status : JobStatus := .pending
  progress : ℚ := 0
  items_scraped : Nat := 0
  error_count : Nat := 0
  retry_count : Nat := 0
  results : Option (List Item) := none
deriving DecidableEq, Repr

/-- One step of the `for item in results` loop of
`ScraperController._process_results` (controller.py lines 194-215):
invalid items are skipped (`continue`), an exception while processing the
item increments `error_count`, and otherwise the cleaned item is appended
and `items_scraped` is incremented.  No other job field is assigned in
this loop. -/
def processItemStep (acc : List Item × ScrapingJob) (item : Item) :
    List Item × ScrapingJob :=
  let (res, job) := acc
  if item.valid = false then (res, job)
  else if item.procFails then
    (res, { job with error_count := job.error_count + 1 })
  else
    (res ++ [item], { job with items_scraped := job.items_scraped + 1 })

/-- ScraperController._process_results (controller.py lines 190-217). -/
def process_results (results : List Item) (job : ScrapingJob) :
    List Item × ScrapingJob :=
  results.foldl processItemStep ([], job)

/-- The in-memory job table `self.active_jobs : Dict[str, ScrapingJob]`,
embedded as an association list with distinct keys. -/
abbrev JobTable := List (String × ScrapingJob)

/-- Embedding of `self.active_jobs.get(job_id)`: first (and, keys being
distinct, only) entry whose key equals `jobId`. -/
def tableGet (jobId : String) : JobTable → Option ScrapingJob
  | [] => none
  | kv :: rest => if kv.1 == jobId then some kv.2 else tableGet jobId rest

/-- ScraperController.cancel_job (controller.py lines 236-243):

    job = self.active_jobs.get(job_id)
    if job and job.status == 'running':
        job.status = 'cancelled'
        self._cleanup_job(job)
        return True
    return False

The in-place status mutation is embedded as an update of the table entry;
`_cleanup_job` touches only the proxy manager and monitor, not the table. -/
def cancel_job (jobs : JobTable) (jobId : String) : Bool × JobTable :=
  match tableGet jobId jobs with
  | some job =>
      if job.status = .running then
        (true, jobs.map (fun kv =>
          if kv.1 == jobId then (kv.1, { kv.2 with status := .cancelled }) else kv))
      else (false, jobs)
  | none => (false, jobs)

/-- One retry-loop attempt of `ScraperController._execute_job`
(controller.py lines 111-149).  Modelled from the spec where src is
incomplete: `run_async` is the platform worker's network pass (its raising
is `runFails`), and `_store_results` is the storage collaborator of §6
(its raising is `storeFails`); both are called but not defined in src. -/
structure Attempt where
  runFails : Bool
  results : List Item
  storeFails : Bool
deriving DecidableEq, Repr

/-- The `except` branch of the retry loop (controller.py lines 136-143):
`job.error_count += 1; job.retry_count += 1`. -/
def failBump (job : ScrapingJob) : ScrapingJob :=
  { job with error_count := job.error_count + 1,
             retry_count := job.retry_count + 1 }

/-- ScraperController._execute_job retry loop (controller.py lines 87-158):
`while job.retry_count < self.max_retries:` run the spider; on success
process results, store them, set `job.status = 'completed'` and return;
on an exception bump the counters and, when `retry_count >= max_retries`,
re-raise so that the outer handler sets `job.status = 'failed'`.
One `Attempt` drives one loop iteration; an exhausted attempt list while
the loop is still live leaves the job as is (the modelled trace ended). -/
def execute_job (maxRetries : Nat) : List Attempt → ScrapingJob → ScrapingJob
  | [], job => job
  | a :: rest, job =>
    if job.retry_count < maxRetries then
      if a.runFails then
        let job' := failBump job
        if maxRetries ≤ job'.retry_count then { job' with status := .failed }
        else execute_job maxRetries rest job'
      else
        let pr := process_results a.results job
        if a.storeFails then
          let job' := failBump pr.2
          if maxRetries ≤ job'.retry_count then { job' with status := .failed }
          else execute_job maxRetries rest job'
        else { pr.2 with status := .completed, results := some pr.1 }
    else job

/-- Auxiliary facts about the `_process_results` item loop: it never
assigns `progress`, `status`, `max_items` or `retry_count`, and it
increments `items_scraped` once per item that validates and whose
processing does not raise. -/
theorem processResults_foldl_spec (results : List Item) (res : List Item)
    (job : ScrapingJob) :
    (results.foldl processItemStep (res, job)).2.progress = job.progress ∧
    (results.foldl processItemStep (res, job)).2.status = job.status ∧
    (results.foldl processItemStep (res, job)).2.max_items = job.max_items ∧
    (results.foldl processItemStep (res, job)).2.retry_count = job.retry_count ∧
    (results.foldl processItemStep (res, job)).2.items_scraped
      = job.items_scraped
        + (results.filter (fun i => i.valid && !i.procFails)).length := by
  induction results generalizing res job with
  | nil => simp
  | cons item rest ih =>
    rcases hv : item.valid with _ | _ <;>
      rcases hp : item.procFails with _ | _ <;>
        simp [processItemStep, hv, hp, ih, Nat.add_assoc, Nat.add_comm 1]

/-- Auxiliary: unchanged fields of `process_results`. -/
theorem process_results_progress (results : List Item) (job : ScrapingJob) :
    (process_results results job).2.progress = job.progress :=
  (processResults_foldl_spec results [] job).1

/-- Auxiliary: `items_scraped` counting for `process_results`. -/
theorem process_results_items (results : List Item) (job : ScrapingJob) :
    (process_results results job).2.items_scraped
      = job.items_scraped
        + (results.filter (fun i => i.valid && !i.procFails)).length :=
  (processResults_foldl_spec results [] job).2.2.2.2

/-- Auxiliary: looking up a job after `cancel_job` rewrote its status. -/
theorem lookup_cancel_update (jobs : JobTable) (jobId : String)
    (j : ScrapingJob) (h : tableGet jobId jobs = some j) :
    tableGet jobId (jobs.map (fun kv =>
      if kv.1 == jobId then (kv.1, { kv.2 with status := .cancelled }) else kv))
      = some { j with status := .cancelled } := by
  induction jobs with
  | nil => simp [tableGet] at h
  | cons kv rest ih =>
    obtain ⟨k, v⟩ := kv
    by_cases hk : k = jobId
    · subst hk
      simp only [tableGet, beq_self_eq_true, if_true, Option.some.injEq] at h
      simp only [List.map_cons, tableGet, beq_self_eq_true, if_true,
        Option.some.injEq, h]
    · have hne' : (k == jobId) = false := by
        simp only [beq_eq_false_iff_ne, ne_eq]
        exact hk
      simp only [tableGet, hne', Bool.false_eq_true, if_false] at h
      simp only [List.map_cons, tableGet, hne', Bool.false_eq_true, if_false]
      exact ih h

/-- C1 counterexample: a job whose status is 'pending' at the time of the
call.  The claim predicts `cancel` returns true for 'pending', but
`cancel_job` (controller.py line 239) tests `job.status == 'running'`
only, so it returns false.  The first conjunct fixes the job found in the
table; the second refutes the claimed if-and-only-if at that input. -/
theorem c1_counterexample :
    tableGet "j1" [("j1", ({ max_items := 5, status := .pending } : ScrapingJob))]
        = some { max_items := 5, status := .pending } ∧
    ¬ (((cancel_job [("j1", ({ max_items := 5, status := .pending } : ScrapingJob))]
          "j1").1 = true)
        ↔ (JobStatus.pending = JobStatus.running ∨
           JobStatus.pending = JobStatus.pending)) := by
  decide

/-- C1 (amended): `cancel_job` returns true exactly when the job table
holds the id and that job's status is 'running'; for any present job not
in 'running' — including 'pending' — it is a no-op returning false; when
it does cancel, the job's status in the table becomes 'cancelled'. -/
theorem c1_cancel_only_running (jobs : JobTable) (jobId : String) :
    ((cancel_job jobs jobId).1 = true ↔
       ∃ j, tableGet jobId jobs = some j ∧ j.status = .running) ∧
    (∀ j, tableGet jobId jobs = some j → j.status ≠ .running →
       cancel_job jobs jobId = (false, jobs)) ∧
    (∀ j, tableGet jobId jobs = some j → j.status = .running →
       (cancel_job jobs jobId).1 = true ∧
       tableGet jobId (cancel_job jobs jobId).2
         = some { j with status := .cancelled }) := by
  refine ⟨?_, ?_, ?_⟩
  · cases htg : tableGet jobId jobs with
    | none => simp [cancel_job, htg]
    | some job =>
      by_cases hs : job.status = .running
      · simp only [cancel_job, htg, hs, if_true, reduceIte]
        simp only [true_iff]
        exact ⟨job, rfl, hs⟩
      · simp [cancel_job, htg, hs]
  · intro j hj hne
    simp [cancel_job, hj, hne]
  · intro j hj hs
    refine ⟨by simp [cancel_job, hj, hs], ?_⟩
    simp only [cancel_job, hj, hs, if_true, reduceIte]
    exact lookup_cancel_update jobs jobId j hj

/-- C1 witness: instantiating the amended theorem on a one-entry table
holding a pending job. -/
theorem c1_witness :
    cancel_job [("j1", ({ max_items := 5, status := .pending } : ScrapingJob))] "j1"
      = (false, [("j1", { max_items := 5, status := .pending })]) :=
  (c1_cancel_only_running
      [("j1", { max_items := 5, status := .pending })] "j1").2.1
    { max_items := 5, status := .pending } (by decide) (by decide)

/-- C10: cancelling a job id that is not in the table returns false and
leaves the table unchanged (the total function raises nothing), and this
outcome is indistinguishable from cancelling a job in a terminal status:
both paths return false and leave the table as it was. -/
theorem c10_cancel_unknown_id (jobs : JobTable) (jobId : String)
    (h : tableGet jobId jobs = none) :
    cancel_job jobs jobId = (false, jobs) ∧
    (∀ jobs2 j, tableGet jobId jobs2 = some j →
       (j.status = .completed ∨ j.status = .failed ∨ j.status = .cancelled) →
       (cancel_job jobs2 jobId).1 = (cancel_job jobs jobId).1 ∧
       (cancel_job jobs2 jobId).2 = jobs2) := by
  have hbase : cancel_job jobs jobId = (false, jobs) := by
    simp [cancel_job, h]
  refine ⟨hbase, ?_⟩
  intro jobs2 j hj hterm
  have hne : j.status ≠ .running := by
    rcases hterm with h1 | h1 | h1 <;> simp [h1]
  have h2 : cancel_job jobs2 jobId = (false, jobs2) := by
    simp [cancel_job, hj, hne]
  rw [h2, hbase]
  exact ⟨rfl, rfl⟩

/-- C10 witness: the empty table does not contain "missing". -/
theorem c10_witness :
    cancel_job ([] : JobTable) "missing" = (false, []) :=
  (c10_cancel_unknown_id [] "missing" (by decide)).1

/-- C2 counterexample: processing one valid record on a fresh job with
`max_items = 2` increments `items_scraped` to 1 but leaves `progress` at
its initial 0, whereas the claim requires `progress = items_scraped /
max_items = 1/2` after the record. -/
theorem c2_counterexample :
    (process_results [{ valid := true, procFails := false }]
        ({ max_items := 2 } : ScrapingJob)).2.items_scraped = 1 ∧
    (process_results [{ valid := true, procFails := false }]
        ({ max_items := 2 } : ScrapingJob)).2.progress = 0 ∧
    ¬ ((process_results [{ valid := true, procFails := false }]
          ({ max_items := 2 } : ScrapingJob)).2.progress
        = ((process_results [{ valid := true, procFails := false }]
              ({ max_items := 2 } : ScrapingJob)).2.items_scraped : ℚ)
          / (({ max_items := 2 } : ScrapingJob).max_items : ℚ)) := by
  have h1 : (process_results [{ valid := true, procFails := false }]
      ({ max_items := 2 } : ScrapingJob)).2.items_scraped = 1 := by decide
  have h2 : (process_results [{ valid := true, procFails := false }]
      ({ max_items := 2 } : ScrapingJob)).2.progress = 0 := by decide
  have h3 : ({ max_items := 2 } : ScrapingJob).max_items = 2 := rfl
  refine ⟨h1, h2, ?_⟩
  rw [h1, h2, h3]
  norm_num

/-- C2 (amended): after each extracted record `_process_results` updates
only `items_scraped` (once per record that validates and whose processing
does not raise); the `progress` field is never assigned by result
processing and keeps its prior value — so it does not track
`items_scraped / max_items`, and on completion it still holds the value
it had before processing (0 for a fresh job).  It is trivially
non-decreasing, being constant. -/
theorem c2_progress_not_updated (results : List Item) (job : ScrapingJob) :
    (process_results results job).2.progress = job.progress ∧
    (process_results results job).2.items_scraped
      = job.items_scraped
        + (results.filter (fun i => i.valid && !i.procFails)).length ∧
    (process_results results job).2.status = job.status :=
  ⟨(processResults_foldl_spec results [] job).1,
   (processResults_foldl_spec results [] job).2.2.2.2,
   (processResults_foldl_spec results [] job).2.1⟩

/-- C3 counterexample: a reachable execution trace in which
`items_scraped` exceeds `max_items`.  The spider yields one valid record
per run (within its `max_items = 1` quota); the first attempt processes
it (counter 1) and then the store step raises, so the retry loop runs the
spider again and processes a second record (counter 2); the second store
succeeds and the job completes with `items_scraped = 2 > max_items = 1`. -/
theorem c3_counterexample :
    (execute_job 3
        [{ runFails := false, results := [{ valid := true, procFails := false }],
           storeFails := true },
         { runFails := false, results := [{ valid := true, procFails := false }],
           storeFails := false }]
        ({ max_items := 1 } : ScrapingJob)).items_scraped = 2 ∧
    (execute_job 3
        [{ runFails := false, results := [{ valid := true, procFails := false }],
           storeFails := true },
         { runFails := false, results := [{ valid := true, procFails := false }],
           storeFails := false }]
        ({ max_items := 1 } : ScrapingJob)).status = .completed ∧
    ¬ ((execute_job 3
        [{ runFails := false, results := [{ valid := true, procFails := false }],
           storeFails := true },
         { runFails := false, results := [{ valid := true, procFails := false }],
           storeFails := false }]
        ({ max_items := 1 } : ScrapingJob)).items_scraped
      ≤ (execute_job 3
        [{ runFails := false, results := [{ valid := true, procFails := false }],
           storeFails := true },
         { runFails := false, results := [{ valid := true, procFails := false }],
           storeFails := false }]
        ({ max_items := 1 } : ScrapingJob)).max_items) := by
  decide

/-- C3 (amended): `items_scraped` is never clamped to `max_items`; it
accumulates across retry attempts, bounded only by the total number of
records supplied over all runs.  It can therefore exceed `max_items`
whenever result processing runs more than once for the same job (a store
failure after a processed batch forces a retry that re-counts a fresh
batch). -/
theorem c3_items_accumulate (maxRetries : Nat) (atts : List Attempt)
    (job : ScrapingJob) :
    (execute_job maxRetries atts job).items_scraped ≤
      job.items_scraped + (atts.map (fun a => a.results.length)).sum := by
  induction atts generalizing job with
  | nil => simp [execute_job]
  | cons a rest ih =>
    have hpr : (process_results a.results job).2.items_scraped
        ≤ job.items_scraped + a.results.length := by
      rw [process_results_items]
      exact Nat.add_le_add_left (List.length_filter_le _ _) _
    have hfb : (failBump job).items_scraped = job.items_scraped := rfl
    have hfb2 : (failBump (process_results a.results job).2).items_scraped
        = (process_results a.results job).2.items_scraped := rfl
    have hih1 := ih (failBump job)
    have hih2 := ih (failBump (process_results a.results job).2)
    simp only [execute_job, List.map_cons, List.sum_cons]
    split_ifs with h1 h2 h3 h4 <;>
      simp only [failBump] at * <;> omega

/-- C4 counterexample: a cancelled job — terminal per the claim's own
state machine — is resurrected to 'completed' when the executing task
finishes, because `_execute_job` assigns `job.status = 'completed'`
unconditionally (controller.py line 127).  The first conjunct shows the
cancel path produced the terminal 'cancelled' status; the second shows the
task's success path overwrites it. -/
theorem c4_counterexample :
    tableGet "j1"
        (cancel_job [("j1", ({ max_items := 5, status := .running } : ScrapingJob))]
          "j1").2
      = some { max_items := 5, status := .cancelled } ∧
    (execute_job 3 [{ runFails := false, results := [], storeFails := false }]
        ({ max_items := 5, status := .cancelled } : ScrapingJob)).status
      = .completed ∧
    JobStatus.cancelled ≠ JobStatus.completed := by
  decide

/-- C4 (amended): the status assignment on the success path of the retry
loop is unconditional on the job's current status: whenever an attempt
runs and stores without raising while retries remain, the final status is
'completed' — including when the job's status was already terminal
('cancelled', 'failed' or 'completed') when the task finished. -/
theorem c4_finish_overwrites_terminal (maxRetries : Nat) (a : Attempt)
    (rest : List Attempt) (job : ScrapingJob)
    (h1 : job.retry_count < maxRetries)
    (h2 : a.runFails = false) (h3 : a.storeFails = false) :
    (execute_job maxRetries (a :: rest) job).status = .completed := by
  simp [execute_job, h1, h2, h3]

/-- C4 witness: the amended theorem applied to a cancelled job with a
clean final attempt. -/
theorem c4_witness :
    (execute_job 3 [{ runFails := false, results := [], storeFails := false }]
        ({ max_items := 5, status := .cancelled } : ScrapingJob)).status
      = .completed :=
  c4_finish_overwrites_terminal 3
    { runFails := false, results := [], storeFails := false } []
    { max_items := 5, status := .cancelled } (by decide) rfl rfl

/-- Proxy dataclass, shared shape of src/backend/utils/proxy_manager.py
(lines 12-24) and src/backend/scraper/proxy_manager.py (lines 10-20):
success/failure counters, observed response time and last-used timestamp.
Unused identity fields (host, port, credentials, protocol, country) are
collapsed into `host`. -/
structure Proxy where
  host : String := ""
  success_count : Nat := 0
  fail_count : Nat := 0
  response_time : ℚ := 0
  last_used : Option ℚ := none
deriving DecidableEq, Repr

/-- Proxy.health_score (utils/proxy_manager.py lines 32-38, identical in
scraper/proxy_manager.py lines 28-33): successes / (successes + failures),
0.5 when there is no history. -/
def health_score (p : Proxy) : ℚ :=
  if p.success_count + p.fail_count = 0 then 1/2
  else (p.success_count : ℚ) / ((p.success_count + p.fail_count : ℕ) : ℚ)

/-- Candidate filter of ProxyManager.get_proxy (utils/proxy_manager.py
lines 69-74): health score at least `min_health_score = 0.3` and
`last_used` absent or strictly older than `rotation_delay = 30` seconds. -/
def availableFilter (now : ℚ) (p : Proxy) : Bool :=
  decide (3/10 ≤ health_score p) &&
    (match p.last_used with
     | none => true
     | some lu => decide (now - lu > 30))

/-- Selection key of utils get_proxy (line 82):
`health_score / (response_time + 0.1)`. -/
def proxyKey (p : Proxy) : ℚ :=
  health_score p / (p.response_time + 1/10)

/-- Python's `max(available, key=...)`: scan keeping the current maximum,
replacing it only on a strictly greater key, so the first maximal element
wins. -/
def pickMax (best : Proxy) : List Proxy → Proxy
  | [] => best
  | p :: rest => pickMax (if proxyKey best < proxyKey p then p else best) rest

/-- ProxyManager.get_proxy (utils/proxy_manager.py lines 63-86): `None`
for an empty pool, filter to available candidates, `None` if none
qualifies, otherwise the key-maximal candidate with its `last_used`
stamped to the current time. -/
def get_proxy (now : ℚ) (pool : List Proxy) : Option Proxy :=
  if pool.isEmpty then none
  else
    match pool.filter (availableFilter now) with
    | [] => none
    | p :: rest =>
      let chosen := pickMax p rest
      some { chosen with last_used := some now }

/-- ProxyManager.report_success (utils/proxy_manager.py lines 122-125):
bump the success counter and stamp `last_used`. -/
def report_success (now : ℚ) (p : Proxy) : Proxy :=
  { p with success_count := p.success_count + 1, last_used := some now }

/-- ProxyManager.report_failure (utils/proxy_manager.py lines 127-134)
restricted to the handle itself: bump the failure counter.  The pool
eviction that follows does not alter the handle's counters. -/
def report_failure (p : Proxy) : Proxy :=
  { p with fail_count := p.fail_count + 1 }

/-- An unbroken streak of `n` success reports against one handle. -/
def successStreak (now : ℚ) : Nat → Proxy → Proxy
  | 0, p => p
  | n + 1, p => successStreak now n (report_success now p)

/-- An unbroken streak of `n` failure reports against one handle. -/
def failureStreak : Nat → Proxy → Proxy
  | 0, p => p
  | n + 1, p => failureStreak n (report_failure p)

/-- Auxiliary: counters after a success streak. -/
theorem successStreak_counts (now : ℚ) (n : Nat) (p : Proxy) :
    (successStreak now n p).success_count = p.success_count + n ∧
    (successStreak now n p).fail_count = p.fail_count := by
  induction n generalizing p with
  | zero => simp [successStreak]
  | succ m ih =>
    obtain ⟨h1, h2⟩ := ih (report_success now p)
    constructor
    · rw [successStreak, h1]
      simp only [report_success]
      omega
    · rw [successStreak, h2]
      rfl

/-- Auxiliary: counters after a failure streak. -/
theorem failureStreak_counts (n : Nat) (p : Proxy) :
    (failureStreak n p).success_count = p.success_count ∧
    (failureStreak n p).fail_count = p.fail_count + n := by
  induction n generalizing p with
  | zero => simp [failureStreak]
  | succ m ih =>
    obtain ⟨h1, h2⟩ := ih (report_failure p)
    constructor
    · rw [failureStreak, h1]
      rfl
    · rw [failureStreak, h2]
      simp only [report_failure]
      omega

/-- Auxiliary: closed form of the health score for positive totals. -/
theorem health_score_pos_total (p : Proxy)
    (h : p.success_count + p.fail_count ≠ 0) :
    health_score p
      = (p.success_count : ℚ) / ((p.success_count : ℚ) + (p.fail_count : ℚ)) := by
  rw [health_score, if_neg h]
  push_cast
  ring_nf

/-- C7 counterexample: a handle with one success and no failures has
health score 1; reporting another success leaves the score at 1, so the
score does not strictly increase after every report_success. -/
theorem c7_counterexample :
    health_score ({ success_count := 1 } : Proxy) = 1 ∧
    health_score (report_success 0 ({ success_count := 1 } : Proxy)) = 1 ∧
    ¬ (health_score ({ success_count := 1 } : Proxy)
        < health_score (report_success 0 ({ success_count := 1 } : Proxy))) := by
  refine ⟨?_, ?_, ?_⟩ <;> norm_num [health_score, report_success]

/-- C7 (amended): with health score = successes/(successes+failures) and
default 1/2 on no history, the score strictly increases after a
report_success whenever some failure has been recorded (equivalently,
whenever the score is below 1) and strictly decreases after a
report_failure whenever some success is recorded; at the saturation
points the score stays put (1 stays 1 under success, 0 stays 0 under
failure); a first report from the no-history default moves 1/2 to 1 or 0;
and under an unbroken success (resp. failure) streak the score converges
to 1 (resp. 0). -/
theorem c7_health_monotonicity :
    (health_score ({} : Proxy) = 1/2) ∧
    (∀ (now : ℚ) (p : Proxy), 0 < p.fail_count →
       health_score p < health_score (report_success now p)) ∧
    (∀ p : Proxy, 0 < p.success_count →
       health_score (report_failure p) < health_score p) ∧
    (∀ (now : ℚ) (p : Proxy), p.success_count = 0 → p.fail_count = 0 →
       health_score (report_success now p) = 1 ∧
       health_score (report_failure p) = 0) ∧
    (∀ (now : ℚ) (p : Proxy), p.fail_count = 0 → 0 < p.success_count →
       health_score (report_success now p) = health_score p) ∧
    (∀ p : Proxy, p.success_count = 0 → 0 < p.fail_count →
       health_score (report_failure p) = health_score p) ∧
    (∀ (now : ℚ) (p : Proxy) (ε : ℚ), 0 < ε → ∃ N : ℕ, ∀ n : ℕ, N ≤ n →
       1 - health_score (successStreak now n p) < ε ∧
       health_score (failureStreak n p) < ε) := by
  have hproj : ∀ (now : ℚ) (p : Proxy),
      (report_success now p).success_count = p.success_count + 1 ∧
      (report_success now p).fail_count = p.fail_count := fun _ _ => ⟨rfl, rfl⟩
  have hprojf : ∀ p : Proxy,
      (report_failure p).success_count = p.success_count ∧
      (report_failure p).fail_count = p.fail_count + 1 := fun _ => ⟨rfl, rfl⟩
  refine ⟨by norm_num [health_score], ?_, ?_, ?_, ?_, ?_, ?_⟩
  · intro now p hf
    have hfq : (0:ℚ) < p.fail_count := by exact_mod_cast hf
    have hsq : (0:ℚ) ≤ p.success_count := Nat.cast_nonneg _
    rw [health_score_pos_total p (by omega),
        health_score_pos_total (report_success now p)
          (by rw [(hproj now p).1, (hproj now p).2]; omega),
        (hproj now p).1, (hproj now p).2]
    push_cast
    rw [div_lt_div_iff (by linarith) (by linarith)]
    nlinarith
  · intro p hs
    have hsq : (0:ℚ) < p.success_count := by exact_mod_cast hs
    have hfq : (0:ℚ) ≤ p.fail_count := Nat.cast_nonneg _
    rw [health_score_pos_total p (by omega),
        health_score_pos_total (report_failure p)
          (by rw [(hprojf p).1, (hprojf p).2]; omega),
        (hprojf p).1, (hprojf p).2]
    push_cast
    rw [div_lt_div_iff (by linarith) (by linarith)]
    nlinarith
  · intro now p h0 h1
    constructor
    · rw [health_score_pos_total (report_success now p)
          (by rw [(hproj now p).1, (hproj now p).2]; omega),
        (hproj now p).1, (hproj now p).2, h0, h1]
      norm_num
    · rw [health_score_pos_total (report_failure p)
          (by rw [(hprojf p).1, (hprojf p).2]; omega),
        (hprojf p).1, (hprojf p).2, h0, h1]
      norm_num
  · intro now p hf0 hs
    have hsq : (0:ℚ) < p.success_count := by exact_mod_cast hs
    rw [health_score_pos_total p (by omega),
        health_score_pos_total (report_success now p)
          (by rw [(hproj now p).1, (hproj now p).2]; omega),
        (hproj now p).1, (hproj now p).2, hf0]
    push_cast
    rw [add_zero, add_zero, div_self (by linarith), div_self (by linarith)]
  · intro p hs0 hf
    have hfq : (0:ℚ) < p.fail_count := by exact_mod_cast hf
    rw [health_score_pos_total p (by omega),
        health_score_pos_total (report_failure p)
          (by rw [(hprojf p).1, (hprojf p).2]; omega),
        (hprojf p).1, (hprojf p).2, hs0]
    push_cast
    rw [zero_div, zero_div]
  · intro now p ε hε
    obtain ⟨N0, hN0⟩ :=
      exists_nat_gt (((p.success_count : ℚ) + (p.fail_count : ℚ)) / ε)
    refine ⟨N0 + 1, ?_⟩
    intro n hn
    have hsc := successStreak_counts now n p
    have hfc := failureStreak_counts n p
    have hn1 : 1 ≤ n := by omega
    have hn1q : (1:ℚ) ≤ n := by exact_mod_cast hn1
    have hNn : ((N0 : ℚ)) ≤ n := by exact_mod_cast Nat.le_of_succ_le hn
    have hnq : ((p.success_count : ℚ) + (p.fail_count : ℚ)) / ε < (n : ℚ) :=
      lt_of_lt_of_le hN0 hNn
    have hsum : (p.success_count : ℚ) + (p.fail_count : ℚ) < (n : ℚ) * ε :=
      (div_lt_iff hε).mp hnq
    have hsq : (0:ℚ) ≤ p.success_count := Nat.cast_nonneg _
    have hfq : (0:ℚ) ≤ p.fail_count := Nat.cast_nonneg _
    constructor
    · rw [health_score_pos_total (successStreak now n p)
          (by rw [hsc.1, hsc.2]; omega), hsc.1, hsc.2]
      push_cast
      have hD : (0:ℚ) < (p.success_count : ℚ) + (n : ℚ) + (p.fail_count : ℚ) := by
        linarith
      have he : 1 - ((p.success_count : ℚ) + (n : ℚ))
            / ((p.success_count : ℚ) + (n : ℚ) + (p.fail_count : ℚ))
          = (p.fail_count : ℚ)
            / ((p.success_count : ℚ) + (n : ℚ) + (p.fail_count : ℚ)) := by
        field_simp
      rw [he, div_lt_iff hD]
      nlinarith
    · rw [health_score_pos_total (failureStreak n p)
          (by rw [hfc.1, hfc.2]; omega), hfc.1, hfc.2]
      push_cast
      have hD : (0:ℚ) < (p.success_count : ℚ) + ((p.fail_count : ℚ) + (n : ℚ)) := by
        linarith
      rw [div_lt_iff hD]
      nlinarith

/-- C7 witness: the strict-increase branch of the amended theorem at a
handle with one success and one failure (score 1/2 rises to 2/3). -/
theorem c7_witness :
    health_score ({ success_count := 1, fail_count := 1 } : Proxy)
      < health_score (report_success 0 ({ success_count := 1, fail_count := 1 } : Proxy)) :=
  c7_health_monotonicity.2.1 0 { success_count := 1, fail_count := 1 } (by decide)

/-- Auxiliary: `get_proxy` rewritten through the candidate filter (the
leading empty-pool test is subsumed: an empty pool filters to an empty
candidate list). -/
theorem get_proxy_eq (now : ℚ) (pool : List Proxy) :
    get_proxy now pool
      = match pool.filter (availableFilter now) with
        | [] => none
        | p :: rest => some { pickMax p rest with last_used := some now } := by
  cases pool with
  | nil => rfl
  | cons a l => rfl

/-- Auxiliary: the element Python's `max` keeps comes from the scanned
list. -/
theorem pickMax_mem (best : Proxy) (l : List Proxy) :
    pickMax best l = best ∨ pickMax best l ∈ l := by
  induction l generalizing best with
  | nil => left; rfl
  | cons p rest ih =>
    rw [pickMax]
    by_cases hc : proxyKey best < proxyKey p
    · rw [if_pos hc]
      rcases ih p with h | h
      · right; rw [h]; exact List.mem_cons_self p rest
      · right; exact List.mem_cons_of_mem p h
    · rw [if_neg hc]
      rcases ih best with h | h
      · left; exact h
      · right; exact List.mem_cons_of_mem p h

/-- Auxiliary: the element Python's `max` keeps has a maximal key. -/
theorem pickMax_ge (best : Proxy) (l : List Proxy) :
    proxyKey best ≤ proxyKey (pickMax best l) ∧
    ∀ x ∈ l, proxyKey x ≤ proxyKey (pickMax best l) := by
  induction l generalizing best with
  | nil => exact ⟨le_refl _, by simp⟩
  | cons p rest ih =>
    rw [pickMax]
    by_cases hc : proxyKey best < proxyKey p
    · rw [if_pos hc]
      obtain ⟨h1, h2⟩ := ih p
      refine ⟨le_of_lt (lt_of_lt_of_le hc h1), ?_⟩
      intro x hx
      rcases List.mem_cons.mp hx with rfl | hx'
      · exact h1
      · exact h2 x hx'
    · rw [if_neg hc]
      obtain ⟨h1, h2⟩ := ih best
      refine ⟨h1, ?_⟩
      intro x hx
      rcases List.mem_cons.mp hx with rfl | hx'
      · exact le_trans (le_of_not_lt hc) h1
      · exact h2 x hx'

/-- C6: `get_proxy` qualifies exactly the handles with health score at
least the 0.3 floor whose `last_used` is absent or strictly older than the
30-second reuse interval; it returns `None` precisely when no pool member
qualifies, and otherwise returns a qualifying member maximizing
`health_score / (response_time + 0.1)`, with its `last_used` stamped to
the current time. -/
theorem c6_acquire_spec (now : ℚ) (pool : List Proxy) :
    (∀ p : Proxy, availableFilter now p = true ↔
       (3/10 ≤ health_score p ∧
        (p.last_used = none ∨ ∃ lu, p.last_used = some lu ∧ 30 < now - lu))) ∧
    (get_proxy now pool = none ↔ ∀ p ∈ pool, availableFilter now p = false) ∧
    (∀ q, get_proxy now pool = some q →
       ∃ p, p ∈ pool ∧ availableFilter now p = true ∧
         q = { p with last_used := some now } ∧ q.last_used = some now ∧
         ∀ r ∈ pool, availableFilter now r = true → proxyKey r ≤ proxyKey p) := by
  refine ⟨?_, ?_, ?_⟩
  · intro p
    cases h : p.last_used with
    | none => simp [availableFilter, h]
    | some lu => simp [availableFilter, h]
  · rw [get_proxy_eq]
    cases hf : pool.filter (availableFilter now) with
    | nil =>
      simp only [true_iff]
      intro p hp
      have := List.filter_eq_nil.mp hf p hp
      simp only [Bool.not_eq_true] at this
      exact this
    | cons p rest =>
      simp only [reduceCtorEq, false_iff, not_forall]
      have hmem := List.mem_filter.mp (hf ▸ List.mem_cons_self p rest)
      exact ⟨p, hmem.1, by simp [hmem.2]⟩
  · intro q hq
    rw [get_proxy_eq] at hq
    cases hf : pool.filter (availableFilter now) with
    | nil => rw [hf] at hq; exact absurd hq (by simp)
    | cons p rest =>
      rw [hf] at hq
      simp only [Option.some.injEq] at hq
      have hchosen : pickMax p rest ∈ p :: rest := by
        rcases pickMax_mem p rest with h | h
        · rw [h]; exact List.mem_cons_self p rest
        · exact List.mem_cons_of_mem p h
      have hmem := List.mem_filter.mp (hf ▸ hchosen)
      refine ⟨pickMax p rest, hmem.1, hmem.2, hq.symm, by rw [← hq], ?_⟩
      intro r hr hravail
      have hrf : r ∈ pool.filter (availableFilter now) :=
        List.mem_filter.mpr ⟨hr, hravail⟩
      rw [hf] at hrf
      rcases List.mem_cons.mp hrf with rfl | hr'
      · exact (pickMax_ge r rest).1
      · exact (pickMax_ge p rest).2 r hr'

/-- Candidate filter of the scraper ProxyManager.get_proxy
(scraper/proxy_manager.py lines 73-77): only the reuse interval
(`min_delay = 5` seconds) is checked — health is not consulted when
selecting candidates in this manager. -/
def recentFilter (minDelay now : ℚ) (p : Proxy) : Bool :=
  match p.last_used with
  | none => true
  | some lu => decide (now - lu > minDelay)

/-- Scraper ProxyManager.get_proxy (scraper/proxy_manager.py lines
67-93): `None` on an empty pool; otherwise keep the proxies not used
within `min_delay` seconds; if none remains, `await
asyncio.sleep(self.min_delay)` and recurse (lines 79-82) — modelled by
advancing the clock by `min_delay` and spending one unit of `fuel`, the
outer `none` meaning the recursion ran past the modelled budget (the code
itself retries without bound); otherwise sort by health score descending
(Python's stable sort), choose uniformly among the top 3 (the
`random.choice` draw is the `pick` oracle) and stamp the choice's
`last_used` with the current time. -/
def get_proxyS (minDelay : ℚ) (pick : Nat) :
    Nat → ℚ → List Proxy → Option (Option Proxy)
  | 0, _, _ => none
  | fuel + 1, now, pool =>
    if pool.isEmpty then some none
    else
      match pool.filter (recentFilter minDelay now) with
      | [] => get_proxyS minDelay pick fuel (now + minDelay) pool
      | p :: rest =>
        let top := ((p :: rest).mergeSort
          (fun a b => decide (health_score b ≤ health_score a))).take 3
        some (some { top.getD (pick % top.length) p with last_used := some now })

/-- ScrapingTask dataclass (orchestrator.py lines 15-27), restricted to
the fields the claims mention. -/
structure ScrapingTask where
  platform : String
  max_items : Nat
  status : JobStatus := .pending
  items_scraped : Nat := 0
  errors : List String := []
  results : Option (List Item) := none
deriving DecidableEq, Repr

/-- One step of the item loop of ScrapingOrchestrator._process_results
(orchestrator.py lines 194-212): an exception while processing the item
(image pipeline or storage call) appends to the error list; otherwise the
record counts only if the storage collaborator returned a truthy product
id (`Item.valid`, modelled from the spec's storage contract since
`db.add_product` is outside the core). -/
def processTaskStep (acc : List Item × ScrapingTask) (item : Item) :
    List Item × ScrapingTask :=
  let (res, task) := acc
  if item.procFails then
    (res, { task with errors := task.errors ++ ["Failed to process item"] })
  else if item.valid then
    (res ++ [item], { task with items_scraped := task.items_scraped + 1 })
  else (res, task)

/-- ScrapingOrchestrator._process_results (orchestrator.py lines 186-214). -/
def process_task_results (results : List Item) (task : ScrapingTask) :
    List Item × ScrapingTask :=
  results.foldl processTaskStep ([], task)

/-- ScrapingOrchestrator._scrape_with_retries (orchestrator.py lines
144-184): `while retry_count < max_retries`, run the spider; a successful
run breaks and returns its batch; a raising run bumps the retry counter
and re-raises (`none`) once it reaches `max_retries`.  Each entry of
`runs` is one spider run's outcome (`none` = the run raised); an
exhausted `runs` list while the loop still wants an attempt is an
under-specified trace (`none`); if the loop is never entered the function
returns the empty `results` accumulator. -/
def scrape_with_retries (maxRetries : Nat) :
    Nat → List (Option (List Item)) → Option (List Item)
  | retryCount, [] =>
    if retryCount < maxRetries then none else some []
  | retryCount, some batch :: _ =>
    if retryCount < maxRetries then some batch else some []
  | retryCount, none :: rest =>
    if retryCount < maxRetries then
      if maxRetries ≤ retryCount + 1 then none
      else scrape_with_retries maxRetries (retryCount + 1) rest
    else some []

/-- ScrapingOrchestrator._execute_task (orchestrator.py lines 87-142).
Both configured platforms ('ebay', 'amazon') have `proxy_required = True`
and `max_retries = 3`; an unsupported platform raises `ValueError`, caught
by the task-level handler (status 'failed', message appended).  The proxy
obtained from `get_proxyS` — possibly `None` for an empty pool, with no
error raised — only parametrizes network behaviour, which is abstracted
into `runs`; a scraping failure marks the task 'failed' with the spider's
own error, and success processes the batch and marks it 'completed'
unconditionally. -/
def execute_task (pool : List Proxy) (now : ℚ) (pick fuel : Nat)
    (runs : List (Option (List Item))) (spiderErr : String)
    (task : ScrapingTask) : ScrapingTask :=
  if (task.platform == "ebay" || task.platform == "amazon") = false then
    { task with status := .failed,
                errors := task.errors ++ ["Unsupported platform: " ++ task.platform] }
  else
    match get_proxyS 5 pick fuel now pool with
    | none => task
    | some _ =>
      match scrape_with_retries 3 0 runs with
      | none => { task with status := .failed,
                            errors := task.errors ++ [spiderErr] }
      | some batch =>
        let pr := process_task_results batch task
        { pr.2 with status := .completed, results := some pr.1 }

/-- C5 counterexample: submit against an empty proxy pool (the extreme of
"no healthy proxy available").  `get_proxy` returns `None` immediately,
no error of any kind is raised, the spider runs without a proxy, and the
job finishes 'completed' with an empty error list — it does not reach
'failed' and no NoProxyAvailable-class error exists anywhere in the code. -/
theorem c5_counterexample :
    get_proxyS 5 0 1 0 [] = some none ∧
    (execute_task [] 0 0 1 [some []] "boom"
        { platform := "ebay", max_items := 5 }).status = .completed ∧
    (execute_task [] 0 0 1 [some []] "boom"
        { platform := "ebay", max_items := 5 }).errors = [] ∧
    JobStatus.completed ≠ JobStatus.failed := by
  decide

/-- C5 (amended): no NoProxyAvailable-class failure exists.  With an
empty pool `get_proxy` returns `None` immediately and the task proceeds
without a proxy: it completes whenever the (proxyless) spider run
succeeds, and fails only with the spider's own error when every retry
raises.  Health is never consulted by this manager, so a pool of
all-unhealthy (never-used) handles still yields a handle instead of
failing; only recently-used pools trigger the sleep-and-recurse path. -/
theorem c5_no_proxy_error_absent (now : ℚ) (pick fuel : Nat)
    (runs : List (Option (List Item))) (spiderErr : String)
    (task : ScrapingTask) (hfuel : 0 < fuel)
    (hplat : task.platform = "ebay" ∨ task.platform = "amazon") :
    (get_proxyS 5 pick fuel now [] = some none) ∧
    (∀ batch, scrape_with_retries 3 0 runs = some batch →
       (execute_task [] now pick fuel runs spiderErr task).status = .completed ∧
       (execute_task [] now pick fuel runs spiderErr task).errors
         = (process_task_results batch task).2.errors) ∧
    (scrape_with_retries 3 0 runs = none →
       (execute_task [] now pick fuel runs spiderErr task).status = .failed ∧
       (execute_task [] now pick fuel runs spiderErr task).errors
         = task.errors ++ [spiderErr]) ∧
    (∀ pool2 : List Proxy, pool2 ≠ [] → (∀ p ∈ pool2, p.last_used = none) →
       ∃ q, get_proxyS 5 pick fuel now pool2 = some (some q)) := by
  obtain ⟨f, rfl⟩ : ∃ f, fuel = f + 1 := ⟨fuel - 1, by omega⟩
  have hgp : get_proxyS 5 pick (f + 1) now [] = some none := rfl
  have hpb : (task.platform == "ebay" || task.platform == "amazon") = true := by
    rcases hplat with h | h <;> simp [h]
  refine ⟨hgp, ?_, ?_, ?_⟩
  · intro batch hb
    simp only [execute_task, hpb, Bool.true_eq_false, if_false, reduceIte, hgp, hb]
    constructor <;> trivial
  · intro hb
    simp only [execute_task, hpb, Bool.true_eq_false, if_false, reduceIte, hgp, hb]
    constructor <;> trivial
  · intro pool2 hne hfresh
    cases pool2 with
    | nil => exact absurd rfl hne
    | cons p rest =>
      have hfilter : (p :: rest).filter (recentFilter 5 now) = p :: rest := by
        apply List.filter_eq_self.mpr
        intro a ha
        simp [recentFilter, hfresh a ha]
      simp only [get_proxyS, List.isEmpty_cons, Bool.false_eq_true, if_false,
        reduceIte, hfilter]
      exact ⟨_, rfl⟩

/-- C5 witness: the fail-with-spider-error branch of the amended theorem,
for an 'ebay' task against the empty pool whose three spider attempts all
raise. -/
theorem c5_witness :
    (execute_task [] 0 0 1 [none, none, none] "spider failed"
        { platform := "ebay", max_items := 5 }).status = .failed ∧
    (execute_task [] 0 0 1 [none, none, none] "spider failed"
        { platform := "ebay", max_items := 5 }).errors
      = ({ platform := "ebay", max_items := 5 } : ScrapingTask).errors
          ++ ["spider failed"] :=
  (c5_no_proxy_error_absent 0 0 1 [none, none, none] "spider failed"
      { platform := "ebay", max_items := 5 } (by decide) (Or.inl rfl)).2.2.1
    (by decide)

/-- C6 witness: a pool with one fresh handle (no history, so health 1/2 ≥
3/10, never used): `get_proxy` returns it stamped with the current time. -/
theorem c6_witness :
    ∃ p, p ∈ [({ host := "p0" } : Proxy)] ∧ availableFilter 0 p = true ∧
      ({ host := "p0", last_used := some 0 } : Proxy)
        = { p with last_used := some 0 } ∧
      ({ host := "p0", last_used := some 0 } : Proxy).last_used = some 0 ∧
      ∀ r ∈ [({ host := "p0" } : Proxy)], availableFilter 0 r = true →
        proxyKey r ≤ proxyKey p :=
  (c6_acquire_spec 0 [{ host := "p0" }]).2.2 { host := "p0", last_used := some 0 }
    (by
      rw [get_proxy_eq]
      have hav : availableFilter 0 ({ host := "p0" } : Proxy) = true := by
        norm_num [availableFilter, health_score]
      simp [hav, pickMax])


/-- RateLimit dataclass (rate_limiter.py lines 8-13): allowed requests,
window period in seconds, the count within the current window and the
window start time. -/
structure RateLimit where
  requests : Nat
  period : ℚ
  current_count : Nat := 0
  last_reset : Option ℚ := none
deriving DecidableEq, Repr

/-- RateLimit.should_reset (rate_limiter.py lines 15-19): true when no
reset was recorded yet or strictly more than `period` seconds elapsed. -/
def should_reset (now : ℚ) (l : RateLimit) : Bool :=
  match l.last_reset with
  | none => true
  | some r => decide (now - r > l.period)

/-- RateLimit.reset (rate_limiter.py lines 21-24). -/
def resetLimit (now : ℚ) (l : RateLimit) : RateLimit :=
  { l with current_count := 0, last_reset := some now }

/-- AdaptiveRateLimiter state for one target domain (rate_limiter.py
lines 29-38): the domain's RateLimit plus `base_delay`, the EMA
`success_rate` and the domain's `last_request_time` entry. -/
structure LimiterState where
  limit : RateLimit
  base_delay : ℚ := 1
  success_rate : ℚ := 1
  last_request_time : Option ℚ := none
deriving DecidableEq, Repr

/-- The adaptive-delay suspension of wait (rate_limiter.py lines 48-56):
`delay = base_delay * (1 + (1 - success_rate))`; if the domain was
requested less than `delay` seconds ago, sleep the difference. -/
def adaptiveSleepOf (st : LimiterState) (now : ℚ) : ℚ :=
  match st.last_request_time with
  | none => 0
  | some lr =>
    if now - lr < st.base_delay * (1 + (1 - st.success_rate)) then
      st.base_delay * (1 + (1 - st.success_rate)) - (now - lr)
    else 0

/-- The `while limit.current_count >= limit.requests` loop of wait
(rate_limiter.py lines 59-64): compute the time to the window reset,
sleep it if positive, reset the window, re-test.  Returns (total slept,
clock after the loop, limit after the loop); `fuel` bounds the modelled
iterations (`none` = budget exhausted, which with `requests = 0` mirrors
the loop never terminating); a missing `last_reset` would crash Python
(`None + timedelta`), also `none`. -/
def rateWindowLoop : Nat → ℚ → RateLimit → Option (ℚ × ℚ × RateLimit)
  | 0, _, _ => none
  | fuel + 1, now, l =>
    if l.current_count ≥ l.requests then
      match l.last_reset with
      | none => none
      | some r =>
        let slept := if r + l.period - now > 0 then r + l.period - now else 0
        (rateWindowLoop fuel (now + slept) (resetLimit (now + slept) l)).map
          (fun sl => (slept + sl.1, sl.2.1, sl.2.2))
    else some (0, now, l)

/-- Result of one `wait` call: the two suspensions it performed (adaptive
delay, rate-window wait), the state after the call, and the clock after
the call — under "quick succession" time advances only by the slept
durations. -/
structure WaitResult where
  adaptiveSleep : ℚ
  rateSleep : ℚ
  state : LimiterState
  now : ℚ
deriving DecidableEq, Repr

/-- AdaptiveRateLimiter.wait for one domain (rate_limiter.py lines
40-68): reset the window if expired, apply the adaptive delay floor,
run the window loop, then `limit.current_count += 1` and stamp
`last_request_time` with the current time. -/
def wait (fuel : Nat) (st : LimiterState) (now : ℚ) : Option WaitResult :=
  let l0 := if should_reset now st.limit then resetLimit now st.limit else st.limit
  let aSleep := adaptiveSleepOf st now
  (rateWindowLoop fuel (now + aSleep) l0).map fun sl =>
    { adaptiveSleep := aSleep, rateSleep := sl.1,
      state := { st with
        limit := { sl.2.2 with current_count := sl.2.2.current_count + 1 },
        last_request_time := some sl.2.1 },
      now := sl.2.1 }

/-- Auxiliary: the window loop only exits below capacity, and it never
changes the configured allowance. -/
theorem rateWindowLoop_spec (fuel : Nat) :
    ∀ (now : ℚ) (l : RateLimit) (sl : ℚ × ℚ × RateLimit),
      rateWindowLoop fuel now l = some sl →
      sl.2.2.current_count < l.requests ∧ sl.2.2.requests = l.requests ∧
      sl.2.2.period = l.period := by
  induction fuel with
  | zero => intro now l sl h; simp [rateWindowLoop] at h
  | succ f ih =>
    intro now l sl h
    rw [rateWindowLoop] at h
    by_cases hc : l.current_count ≥ l.requests
    · rw [if_pos hc] at h
      cases hr : l.last_reset with
      | none => rw [hr] at h; exact absurd h (by simp)
      | some r =>
        rw [hr] at h
        simp only [Option.map_eq_some'] at h
        obtain ⟨a, ha, hfa⟩ := h
        have := ih _ _ _ ha
        rw [← hfa]
        exact this
    · rw [if_neg hc] at h
      simp only [Option.some.injEq] at h
      subst h
      refine ⟨?_, rfl, rfl⟩
      show l.current_count < l.requests
      omega

/-- Auxiliary: the window loop is a no-op below capacity. -/
theorem rateWindowLoop_pass (f : Nat) (now : ℚ) (l : RateLimit)
    (hcount : ¬ l.current_count ≥ l.requests) (hf : 1 ≤ f) :
    rateWindowLoop f now l = some (0, now, l) := by
  obtain ⟨g, rfl⟩ : ∃ g, f = g + 1 := ⟨f - 1, by omega⟩
  simp [rateWindowLoop, hcount]

/-- Auxiliary: at capacity with a live window, the loop sleeps exactly the
remaining window time, resets, and exits. -/
theorem rateWindowLoop_overflow (f : Nat) (now r : ℚ) (l : RateLimit)
    (hcount : l.current_count ≥ l.requests) (hr : l.last_reset = some r)
    (httw : r + l.period - now > 0) (hreq : 0 < l.requests) (hf : 1 ≤ f) :
    rateWindowLoop (f + 1) now l
      = some ((r + l.period - now) + 0, now + (r + l.period - now),
          { l with current_count := 0,
                   last_reset := some (now + (r + l.period - now)) }) := by
  obtain ⟨g, rfl⟩ : ∃ g, f = g + 1 := ⟨f - 1, by omega⟩
  rw [rateWindowLoop]
  rw [if_pos hcount, hr]
  simp only [if_pos httw]
  rw [rateWindowLoop_pass (g + 1) _ _ (by simp [resetLimit]; omega) (by omega)]
  rfl

/-- Auxiliary: one below-capacity `wait` call whose adaptive-delay floor
applies (the domain was requested `now - lr < delay` seconds ago). -/
theorem wait_eval_pass (fuel : Nat) (st : LimiterState) (now lr : ℚ)
    (hlr : st.last_request_time = some lr)
    (hsr : should_reset now st.limit = false)
    (hcond : now - lr < st.base_delay * (1 + (1 - st.success_rate)))
    (hcount : ¬ st.limit.current_count ≥ st.limit.requests)
    (hfuel : 1 ≤ fuel) :
    wait fuel st now = some
      { adaptiveSleep := st.base_delay * (1 + (1 - st.success_rate)) - (now - lr),
        rateSleep := 0,
        state := { st with
          limit := { st.limit with current_count := st.limit.current_count + 1 },
          last_request_time := some (now +
            (st.base_delay * (1 + (1 - st.success_rate)) - (now - lr))) },
        now := now + (st.base_delay * (1 + (1 - st.success_rate)) - (now - lr)) } := by
  simp only [wait, hsr, Bool.false_eq_true, if_false, reduceIte,
    adaptiveSleepOf, hlr, if_pos hcond]
  rw [rateWindowLoop_pass fuel _ _ hcount hfuel]
  rfl

/-- Auxiliary: one at-capacity `wait` call (adaptive floor applies, window
not yet expired): it suspends for the remaining window time, resets the
window and admits the request. -/
theorem wait_eval_overflow (f : Nat) (st : LimiterState) (now lr r aS n1 n2 : ℚ)
    (hlr : st.last_request_time = some lr)
    (hsr : should_reset now st.limit = false)
    (hcond : now - lr < st.base_delay * (1 + (1 - st.success_rate)))
    (haS : aS = st.base_delay * (1 + (1 - st.success_rate)) - (now - lr))
    (hn1 : n1 = now + aS)
    (hcount : st.limit.current_count ≥ st.limit.requests)
    (hr : st.limit.last_reset = some r)
    (httw : r + st.limit.period - n1 > 0)
    (hn2 : n2 = n1 + (r + st.limit.period - n1))
    (hreq : 0 < st.limit.requests) (hf : 1 ≤ f) :
    wait (f + 1) st now = some
      { adaptiveSleep := aS,
        rateSleep := (r + st.limit.period - n1) + 0,
        state := { st with
          limit := { st.limit with current_count := 0 + 1, last_reset := some n2 },
          last_request_time := some n2 },
        now := n2 } := by
  subst haS hn1 hn2
  simp only [wait, hsr, Bool.false_eq_true, if_false, reduceIte,
    adaptiveSleepOf, hlr, if_pos hcond]
  rw [rateWindowLoop_overflow f _ r _ hcount hr httw hreq hf]
  rfl

/-- Auxiliary: the first `wait` call on a fresh limiter (no recorded
reset, no previous request): it resets the window and admits immediately. -/
theorem wait_eval_first (fuel : Nat) (st : LimiterState) (now : ℚ)
    (hlr : st.last_request_time = none)
    (hsr : should_reset now st.limit = true)
    (hreq : 0 < st.limit.requests)
    (hfuel : 1 ≤ fuel) :
    wait fuel st now = some
      { adaptiveSleep := 0, rateSleep := 0,
        state := { st with
          limit := { st.limit with current_count := 0 + 1, last_reset := some now },
          last_request_time := some (now + 0) },
        now := now + 0 } := by
  simp only [wait, hsr, if_true, reduceIte, adaptiveSleepOf, hlr]
  rw [rateWindowLoop_pass fuel _ _ (by simp [resetLimit]; omega) hfuel]
  rfl

/-- The limiter state after `k` admitted calls of the quick-succession
scenario: window started at `t0`, `k` requests counted, last request
stamped `lr`. -/
def scenarioState (R : Nat) (P b t0 lr : ℚ) (k : Nat) : LimiterState :=
  { limit := { requests := R, period := P, current_count := k,
               last_reset := some t0 },
    base_delay := b, success_rate := 1, last_request_time := some lr }

/-- C8: the window count never exceeds the allowance — after any
successful `wait` the stored count is at most `requests` — and in the
quick-succession scenario (clock advanced only by the limiter's own
sleeps, success rate at its initial 1) the first N = `requests` calls are
admitted with zero rate-window suspension, while the (N+1)th call
suspends for exactly `period - N * base_delay`, a duration strictly
positive and at most the window period, before being admitted into a
fresh window.  (The adaptive-delay floor of §4.4, `base_delay` between
consecutive calls, is a separate suspension and is reported separately.) -/
theorem c8_window_capacity :
    (∀ (fuel : Nat) (st : LimiterState) (now : ℚ) (r : WaitResult),
       0 < st.limit.requests → wait fuel st now = some r →
       r.state.limit.current_count ≤ st.limit.requests) ∧
    (∀ (R fuel : Nat) (P b t0 : ℚ), 0 < R → 1 ≤ fuel →
       wait fuel { limit := { requests := R, period := P }, base_delay := b } t0
         = some { adaptiveSleep := 0, rateSleep := 0,
                  state := scenarioState R P b t0 (t0 + 0) 1, now := t0 + 0 }) ∧
    (∀ (R k fuel : Nat) (P b t0 : ℚ), 1 ≤ k → k < R → 0 < b →
       (R : ℚ) * b < P → 1 ≤ fuel →
       wait fuel (scenarioState R P b t0 (t0 + ((k : ℚ) - 1) * b) k)
           (t0 + ((k : ℚ) - 1) * b)
         = some { adaptiveSleep := b, rateSleep := 0,
                  state := scenarioState R P b t0 (t0 + (k : ℚ) * b) (k + 1),
                  now := t0 + (k : ℚ) * b }) ∧
    (∀ (R f : Nat) (P b t0 : ℚ), 0 < R → 0 < b → (R : ℚ) * b < P → 1 ≤ f →
       ∃ r : WaitResult,
         wait (f + 1) (scenarioState R P b t0 (t0 + ((R : ℚ) - 1) * b) R)
             (t0 + ((R : ℚ) - 1) * b) = some r ∧
         r.rateSleep = P - (R : ℚ) * b ∧
         0 < r.rateSleep ∧ r.rateSleep ≤ P ∧
         r.state.limit.current_count = 1 ∧
         r.state.limit.requests = R) := by
  refine ⟨?_, ?_, ?_, ?_⟩
  · intro fuel st now r hreq h
    simp only [wait, Option.map_eq_some'] at h
    obtain ⟨sl, hsl, hr⟩ := h
    have hspec := rateWindowLoop_spec fuel _ _ _ hsl
    have hreqs :
        (if should_reset now st.limit then resetLimit now st.limit
         else st.limit).requests = st.limit.requests := by
      split <;> rfl
    rw [hreqs] at hspec
    rw [← hr]
    show sl.2.2.current_count + 1 ≤ st.limit.requests
    omega
  · intro R fuel P b t0 hR hfuel
    rw [wait_eval_first fuel
      { limit := { requests := R, period := P }, base_delay := b } t0 rfl rfl
      (by simpa using hR) hfuel]
    rfl
  · intro R k fuel P b t0 hk1 hkR hb hRP hfuel
    have hk1q : (1 : ℚ) ≤ (k : ℚ) := by exact_mod_cast hk1
    have hkRq : (k : ℚ) ≤ (R : ℚ) := by exact_mod_cast le_of_lt hkR
    have hmul : ((k : ℚ) - 1) * b ≤ (R : ℚ) * b :=
      mul_le_mul_of_nonneg_right (by linarith) hb.le
    have hsr : should_reset (t0 + ((k : ℚ) - 1) * b)
        (scenarioState R P b t0 (t0 + ((k : ℚ) - 1) * b) k).limit = false := by
      simp only [scenarioState, should_reset]
      exact decide_eq_false (not_lt.mpr (by linarith))
    have hcond : (t0 + ((k : ℚ) - 1) * b) - (t0 + ((k : ℚ) - 1) * b)
        < (scenarioState R P b t0 (t0 + ((k : ℚ) - 1) * b) k).base_delay
          * (1 + (1 - (scenarioState R P b t0
              (t0 + ((k : ℚ) - 1) * b) k).success_rate)) := by
      simp only [scenarioState]
      nlinarith
    have hcount : ¬ (scenarioState R P b t0
          (t0 + ((k : ℚ) - 1) * b) k).limit.current_count
        ≥ (scenarioState R P b t0 (t0 + ((k : ℚ) - 1) * b) k).limit.requests := by
      simp only [scenarioState]
      omega
    rw [wait_eval_pass fuel _ _ _ rfl hsr hcond hcount hfuel]
    simp only [scenarioState, Option.some.injEq, WaitResult.mk.injEq,
      LimiterState.mk.injEq, RateLimit.mk.injEq]
    repeat' apply And.intro
    all_goals first | trivial | ring
  · intro R f P b t0 hR hb hRP hf
    have hRq : (1 : ℚ) ≤ (R : ℚ) := by exact_mod_cast hR
    have hmul : ((R : ℚ) - 1) * b ≤ (R : ℚ) * b :=
      mul_le_mul_of_nonneg_right (by linarith) hb.le
    have hsr : should_reset (t0 + ((R : ℚ) - 1) * b)
        (scenarioState R P b t0 (t0 + ((R : ℚ) - 1) * b) R).limit = false := by
      simp only [scenarioState, should_reset]
      exact decide_eq_false (not_lt.mpr (by linarith))
    have hcond : (t0 + ((R : ℚ) - 1) * b) - (t0 + ((R : ℚ) - 1) * b)
        < (scenarioState R P b t0 (t0 + ((R : ℚ) - 1) * b) R).base_delay
          * (1 + (1 - (scenarioState R P b t0
              (t0 + ((R : ℚ) - 1) * b) R).success_rate)) := by
      simp only [scenarioState]
      nlinarith
    have hcount : (scenarioState R P b t0
          (t0 + ((R : ℚ) - 1) * b) R).limit.current_count
        ≥ (scenarioState R P b t0 (t0 + ((R : ℚ) - 1) * b) R).limit.requests :=
      le_refl R
    have httw : t0 + (scenarioState R P b t0
          (t0 + ((R : ℚ) - 1) * b) R).limit.period
        - ((t0 + ((R : ℚ) - 1) * b) +
            ((scenarioState R P b t0 (t0 + ((R : ℚ) - 1) * b) R).base_delay
              * (1 + (1 - (scenarioState R P b t0
                  (t0 + ((R : ℚ) - 1) * b) R).success_rate))
              - ((t0 + ((R : ℚ) - 1) * b) - (t0 + ((R : ℚ) - 1) * b)))) > 0 := by
      simp only [scenarioState]
      nlinarith
    refine ⟨_, wait_eval_overflow f _ _ _ t0 _ _ _ rfl hsr hcond rfl rfl hcount
      rfl httw rfl (by simpa [scenarioState] using hR) hf, ?_, ?_, ?_, rfl, rfl⟩
    · show (t0 + (scenarioState R P b t0
          (t0 + ((R : ℚ) - 1) * b) R).limit.period
        - ((t0 + ((R : ℚ) - 1) * b) +
            ((scenarioState R P b t0 (t0 + ((R : ℚ) - 1) * b) R).base_delay
              * (1 + (1 - (scenarioState R P b t0
                  (t0 + ((R : ℚ) - 1) * b) R).success_rate))
              - ((t0 + ((R : ℚ) - 1) * b) - (t0 + ((R : ℚ) - 1) * b))))) + 0
        = P - (R : ℚ) * b
      simp only [scenarioState]
      ring
    · show 0 < (t0 + (scenarioState R P b t0
          (t0 + ((R : ℚ) - 1) * b) R).limit.period
        - ((t0 + ((R : ℚ) - 1) * b) +
            ((scenarioState R P b t0 (t0 + ((R : ℚ) - 1) * b) R).base_delay
              * (1 + (1 - (scenarioState R P b t0
                  (t0 + ((R : ℚ) - 1) * b) R).success_rate))
              - ((t0 + ((R : ℚ) - 1) * b) - (t0 + ((R : ℚ) - 1) * b))))) + 0
      simp only [scenarioState]
      nlinarith
    · show (t0 + (scenarioState R P b t0
          (t0 + ((R : ℚ) - 1) * b) R).limit.period
        - ((t0 + ((R : ℚ) - 1) * b) +
            ((scenarioState R P b t0 (t0 + ((R : ℚ) - 1) * b) R).base_delay
              * (1 + (1 - (scenarioState R P b t0
                  (t0 + ((R : ℚ) - 1) * b) R).success_rate))
              - ((t0 + ((R : ℚ) - 1) * b) - (t0 + ((R : ℚ) - 1) * b))))) + 0 ≤ P
      simp only [scenarioState]
      nlinarith

/-- C8 witness: the default window (30 requests per 60 seconds,
base_delay 1, success rate 1) at capacity: the 31st quick-succession call
suspends for 60 - 30 = 30 seconds, strictly positive and at most the
period. -/
theorem c8_witness :
    ∃ r : WaitResult,
      wait 2 (scenarioState 30 60 1 0 (0 + ((30 : ℚ) - 1) * 1) 30)
          (0 + ((30 : ℚ) - 1) * 1) = some r ∧
      r.rateSleep = 60 - (30 : ℚ) * 1 ∧
      0 < r.rateSleep ∧ r.rateSleep ≤ 60 ∧
      r.state.limit.current_count = 1 ∧
      r.state.limit.requests = 30 :=
  c8_window_capacity.2.2.2 30 1 60 1 0 (by norm_num) (by norm_num)
    (by norm_num) (by norm_num)

/-- Truncation to a 32-bit machine word. -/
def w32 (n : Nat) : Nat := n % 4294967296

/-- 32-bit left rotation. -/
def rotl32 (x n : Nat) : Nat :=
  w32 ((x <<< n) ||| (x >>> (32 - n)))

/-- MD5 round constants (RFC 1321). -/
def md5K : List Nat := [
  0xd76aa478, 0xe8c7b756, 0x242070db, 0xc1bdceee,
  0xf57c0faf, 0x4787c62a, 0xa8304613, 0xfd469501,
  0x698098d8, 0x8b44f7af, 0xffff5bb1, 0x895cd7be,
  0x6b901122, 0xfd987193, 0xa679438e, 0x49b40821,
  0xf61e2562, 0xc040b340, 0x265e5a51, 0xe9b6c7aa,
  0xd62f105d, 0x02441453, 0xd8a1e681, 0xe7d3fbc8,
  0x21e1cde6, 0xc33707d6, 0xf4d50d87, 0x455a14ed,
  0xa9e3e905, 0xfcefa3f8, 0x676f02d9, 0x8d2a4c8a,
  0xfffa3942, 0x8771f681, 0x6d9d6122, 0xfde5380c,
  0xa4beea44, 0x4bdecfa9, 0xf6bb4b60, 0xbebfbc70,
  0x289b7ec6, 0xeaa127fa, 0xd4ef3085, 0x04881d05,
  0xd9d4d039, 0xe6db99e5, 0x1fa27cf8, 0xc4ac5665,
  0xf4292244, 0x432aff97, 0xab9423a7, 0xfc93a039,
  0x655b59c3, 0x8f0ccc92, 0xffeff47d, 0x85845dd1,
  0x6fa87e4f, 0xfe2ce6e0, 0xa3014314, 0x4e0811a1,
  0xf7537e82, 0xbd3af235, 0x2ad7d2bb, 0xeb86d391]

/-- MD5 per-round shift amounts (RFC 1321). -/
def md5S : List Nat := [
  7,12,17,22,7,12,17,22,7,12,17,22,7,12,17,22,
  5,9,14,20,5,9,14,20,5,9,14,20,5,9,14,20,
  4,11,16,23,4,11,16,23,4,11,16,23,4,11,16,23,
  6,10,15,21,6,10,15,21,6,10,15,21,6,10,15,21]

/-- MD5 running state (four 32-bit words). -/
structure MD5State where
  a : Nat
  b : Nat
  c : Nat
  d : Nat
deriving DecidableEq, Repr

/-- MD5 initial state. -/
def md5Init : MD5State := ⟨0x67452301, 0xefcdab89, 0x98badcfe, 0x10325476⟩

/-- 32-bit bitwise complement. -/
def notW (x : Nat) : Nat := 0xffffffff ^^^ x

/-- One of the 64 MD5 rounds over a message-word accessor `M`. -/
def md5Round (M : Nat → Nat) (st : MD5State) (i : Nat) : MD5State :=
  let F :=
    if i < 16 then (st.b &&& st.c) ||| (notW st.b &&& st.d)
    else if i < 32 then (st.d &&& st.b) ||| (notW st.d &&& st.c)
    else if i < 48 then st.b ^^^ st.c ^^^ st.d
    else st.c ^^^ (st.b ||| notW st.d)
  let g :=
    if i < 16 then i
    else if i < 32 then (5 * i + 1) % 16
    else if i < 48 then (3 * i + 5) % 16
    else (7 * i) % 16
  let fv := w32 (F + st.a + md5K.getD i 0 + M g)
  { a := st.d, b := w32 (st.b + rotl32 fv (md5S.getD i 0)), c := st.b, d := st.c }

/-- Little-endian 32-bit word `j` of a 64-byte chunk. -/
def leWord (bytes : List Nat) (j : Nat) : Nat :=
  bytes.getD (4 * j) 0 + 256 * bytes.getD (4 * j + 1) 0
    + 65536 * bytes.getD (4 * j + 2) 0 + 16777216 * bytes.getD (4 * j + 3) 0

/-- Process one 64-byte chunk. -/
def md5Chunk (st : MD5State) (chunk : List Nat) : MD5State :=
  let r := (List.range 64).foldl (md5Round (leWord chunk)) st
  { a := w32 (st.a + r.a), b := w32 (st.b + r.b),
    c := w32 (st.c + r.c), d := w32 (st.d + r.d) }

/-- Fold over all 64-byte chunks; the fuel (spent one unit per chunk) only
makes the recursion structural, any value at least the byte count is
enough. -/
def md5ProcessAux : Nat → MD5State → List Nat → MD5State
  | 0, st, _ => st
  | _ + 1, st, [] => st
  | fuel + 1, st, bytes => md5ProcessAux fuel (md5Chunk st (bytes.take 64)) (bytes.drop 64)

/-- Little-endian byte expansion, `k` bytes. -/
def leBytes : Nat → Nat → List Nat
  | 0, _ => []
  | k + 1, n => (n % 256) :: leBytes k (n / 256)

/-- MD5 padding: a 0x80 byte, zeros to 56 mod 64, then the 64-bit
little-endian bit length. -/
def padMsg (m : List Nat) : List Nat :=
  let padLen := (55 + 64 - (m.length % 64)) % 64
  m ++ [128] ++ List.replicate padLen 0
    ++ leBytes 8 ((8 * m.length) % 18446744073709551616)

/-- MD5 of a byte sequence. -/
def md5Bytes (bytes : List Nat) : MD5State :=
  let padded := padMsg bytes
  md5ProcessAux padded.length md5Init padded

/-- The 16-byte MD5 digest, little-endian per word. -/
def md5Digest (bytes : List Nat) : List Nat :=
  let st := md5Bytes bytes
  leBytes 4 st.a ++ leBytes 4 st.b ++ leBytes 4 st.c ++ leBytes 4 st.d

/-- Lower-case hexadecimal digit of a value below 16 (codes 48-57 are the
decimal digits, 97-102 the letters a-f). -/
def hexDigitChar (n : Nat) : Char :=
  if n < 10 then Char.ofNat (48 + n) else Char.ofNat (87 + n)

/-- Two hex characters of one byte. -/
def byteHexChars (b : Nat) : List Char :=
  [hexDigitChar (b / 16 % 16), hexDigitChar (b % 16)]

/-- `hashlib.md5(x).hexdigest()` as a character list (32 hex chars). -/
def md5HexChars (bytes : List Nat) : List Char :=
  ((md5Digest bytes).map byteHexChars).flatten

/-- UTF-8 encoding of one code point (Python's `str.encode()`). -/
def utf8Bytes (c : Nat) : List Nat :=
  if c < 128 then [c]
  else if c < 2048 then [192 ||| (c >>> 6), 128 ||| (c &&& 63)]
  else if c < 65536 then
    [224 ||| (c >>> 12), 128 ||| ((c >>> 6) &&& 63), 128 ||| (c &&& 63)]
  else
    [240 ||| (c >>> 18), 128 ||| ((c >>> 12) &&& 63),
     128 ||| ((c >>> 6) &&& 63), 128 ||| (c &&& 63)]

/-- UTF-8 bytes of a string. -/
def strBytes (s : String) : List Nat :=
  (s.data.map (fun ch => utf8Bytes ch.toNat)).flatten

/-- ImageProcessor._generate_filename (scraper/utils/image_processor.py
lines 186-192, identically utils/image_processor.py lines 191-197):

    timestamp = datetime.now().isoformat()
    url_hash = hashlib.md5(f"{url}{timestamp}".encode()).hexdigest()[:10]
    return f"{product_id}_{url_hash}.jpg"

The `datetime.now()` reading is the explicit `timestamp` argument. -/
def generate_filename (url product_id timestamp : String) : String :=
  let url_hash := (md5HexChars (strBytes (url ++ timestamp))).take 10
  product_id ++ "_" ++ String.mk url_hash ++ ".jpg"

set_option maxRecDepth 10000 in
/-- C9 counterexample: processing the same URL for the same product at two
different times (the timestamps differ by one second) yields two distinct
filenames, because the hashed input includes `datetime.now().isoformat()`;
so re-processing is not idempotent and two processings of an identical URL
do create two distinct files. -/
theorem c9_counterexample :
    generate_filename "https://example.com/ring.jpg" "123" "2025-01-01T00:00:00"
      = "123_4c655b0424.jpg" ∧
    generate_filename "https://example.com/ring.jpg" "123" "2025-01-01T00:00:01"
      = "123_f8e0770ddb.jpg" ∧
    generate_filename "https://example.com/ring.jpg" "123" "2025-01-01T00:00:00"
      ≠ generate_filename "https://example.com/ring.jpg" "123" "2025-01-01T00:00:01" := by
  refine ⟨by decide, by decide, by decide⟩

/-- Auxiliary: `leBytes` produces exactly `k` bytes. -/
theorem leBytes_length (k : Nat) : ∀ n : Nat, (leBytes k n).length = k := by
  induction k with
  | zero => intro n; rfl
  | succ m ih => intro n; simp [leBytes, ih]

/-- Auxiliary: a hex digest always has 32 characters. -/
theorem md5HexChars_length (bytes : List Nat) : (md5HexChars bytes).length = 32 := by
  have hjoin : ∀ l : List Nat, ((l.map byteHexChars).flatten).length = 2 * l.length := by
    intro l
    induction l with
    | nil => rfl
    | cons x xs ih =>
      simp only [List.map_cons, List.flatten_cons, List.length_append, ih,
        byteHexChars, List.length_cons, List.length_nil]
      omega
  rw [md5HexChars, hjoin, md5Digest]
  simp [leBytes_length]

set_option maxRecDepth 10000 in
/-- C9 (amended): the write path is namespaced by product id — every
generated filename is `product_id ++ "_" ++ (10-character hash suffix) ++
".jpg"` — but the suffix is the MD5 of the URL concatenated with the
current timestamp, not of the URL alone: the name is unique per call by
design (the code's docstring says "Generate unique filename"), so
re-processing the same URL at a different time produces a different
filename rather than an idempotent overwrite. -/
theorem c9_filename_namespaced (url pid ts : String) :
    (∃ suffix : List Char, suffix.length = 10 ∧
       generate_filename url pid ts = pid ++ "_" ++ String.mk suffix ++ ".jpg") ∧
    generate_filename "https://img.example.com/a.png" "p42" "2025-06-30T12:00:00"
      ≠ generate_filename "https://img.example.com/a.png" "p42" "2025-07-01T09:30:00" := by
  refine ⟨⟨(md5HexChars (strBytes (url ++ ts))).take 10, ?_, rfl⟩, by decide⟩
  rw [List.length_take, md5HexChars_length]
  omega
